import Mathlib

/-!
Verification of the view-composition layer of the project-updates bot.

The repository contains two independent builder families:

* the "Hub" family (`src/ui/header.ts`, `src/ui/cards.ts`, `src/ui/nav.ts`,
  `src/ui/tabs.ts`, `src/ui/views.ts`, `src/handlers/home.ts`): project
  navigation, task/risk cards and the `buildHomeView` composer with its
  JSON-serialized `private_metadata` state token;
* the "Notion" family (`ui/builders.ts`, `ui/types.ts`): `CardItem` cards,
  `buildCardList`, tab content builders and the `buildHome` composer.

TypeScript types are erased at runtime, so string enumerations (tab names,
statuses) are embedded as `String`; optional fields become `Option`.
JavaScript template interpolation becomes string concatenation, and the
JavaScript runtime helpers the source calls (`String.prototype.trim`,
`JSON.stringify`, `JSON.parse`) are modelled explicitly below.
-/

/-- A Block Kit text object: `{type:"mrkdwn"|"plain_text", text}`. -/
inductive TextObj where
  | mrkdwn (text : String)
  | plain (text : String)
deriving DecidableEq

/-- A `(text, value)` pair inside an overflow menu's `options`. -/
structure OptionItem where
  text : String
  value : String
deriving DecidableEq

/-- A `confirm` payload on a button: `{title, text}`. -/
structure ConfirmObj where
  title : String
  text : String
deriving DecidableEq

/-- A Block Kit button element. Fields that the source sometimes leaves
`undefined` (`style`, `value`, `confirm`) are `Option`s. -/
structure Button where
  action_id : String
  text : String
  style : Option String
  value : Option String
  confirm : Option ConfirmObj
deriving DecidableEq

/-- A section block's `accessory`: either an overflow menu or a button. -/
inductive Accessory where
  | overflow (action_id : String) (options : List OptionItem)
  | abutton (b : Button)
deriving DecidableEq

/-- The Block Kit block variants this library emits:
`section | context | actions | divider`. -/
inductive Block where
  | section (block_id : Option String) (text : TextObj) (accessory : Option Accessory)
  | context (elements : List TextObj)
  | actions (block_id : Option String) (elements : List Button)
  | divider
deriving DecidableEq

/-- The produced view document. `buildHomeView` (Hub family) attaches a
`private_metadata` state token; `buildHome` (Notion family) attaches none,
which is modelled as `none`. -/
structure View where
  type : String
  private_metadata : Option String
  blocks : List Block
deriving DecidableEq

/-- `true` exactly on divider blocks. -/
def isDividerB : Block → Bool
  | .divider => true
  | _ => false

namespace Hub

/-- `Project` from `src/data/models.ts`. -/
structure Project where
  id : String
  name : String
  description : Option String
deriving DecidableEq

/-- `Task` from `src/data/models.ts`; the `status`/`priority` string
enumerations are erased to `String` at runtime. -/
structure Task where
  id : String
  projectId : String
  title : String
  description : Option String
  status : String
  priority : String
  owner : String
  dueDate : Option String
  lastUpdated : String
deriving DecidableEq

/-- `Risk` from `src/data/models.ts`. -/
structure Risk where
  id : String
  projectId : String
  title : String
  description : String
  likelihood : String
  impact : String
  owner : String
  mitigationPlan : Option String
  status : String
  lastUpdated : String
deriving DecidableEq

/-- `buildTaskCard` from `src/ui/cards.ts`: section (with overflow menu),
context, and a trailing divider — three blocks per task. -/
def buildTaskCard (t : Task) : List Block :=
  [Block.section (some ("task_" ++ t.id))
      (.mrkdwn ("*🗂️ " ++ t.title ++ "*  _(" ++ t.status ++ " • " ++ t.priority ++ ")_\n"
        ++ t.description.getD ""))
      (some (.overflow ("task_menu_" ++ t.id)
        [⟨"Open", "open_" ++ t.id⟩, ⟨"Edit", "edit_" ++ t.id⟩,
         ⟨"Change status", "status_" ++ t.id⟩, ⟨"Archive", "archive_" ++ t.id⟩])),
   Block.context [.mrkdwn ("*Owner:* <@" ++ t.owner ++ ">  •  *Due:* "
      ++ t.dueDate.getD "—" ++ "  •  *Updated:* " ++ t.lastUpdated)],
   Block.divider]

/-- `buildRiskCard` from `src/ui/cards.ts`. -/
def buildRiskCard (r : Risk) : List Block :=
  [Block.section (some ("risk_" ++ r.id))
      (.mrkdwn ("*⚠️ " ++ r.title ++ "*  _(" ++ r.likelihood ++ " × " ++ r.impact ++ ")_\n"
        ++ r.description))
      (some (.overflow ("risk_menu_" ++ r.id)
        [⟨"Open", "open_" ++ r.id⟩, ⟨"Edit", "edit_" ++ r.id⟩,
         ⟨"Update status", "status_" ++ r.id⟩, ⟨"Close risk", "close_" ++ r.id⟩])),
   Block.context [.mrkdwn ("*Owner:* <@" ++ r.owner ++ ">  •  *Status:* " ++ r.status
      ++ "  •  *Updated:* " ++ r.lastUpdated)],
   Block.divider]

/-- `buildTaskList = (items) => items.flatMap(buildTaskCard)` from
`src/ui/cards.ts`. -/
def buildTaskList : List Task → List Block
  | [] => []
  | t :: ts => buildTaskCard t ++ buildTaskList ts

/-- `buildRiskList = (items) => items.flatMap(buildRiskCard)` from
`src/ui/cards.ts`. -/
def buildRiskList : List Risk → List Block
  | [] => []
  | r :: rs => buildRiskCard r ++ buildRiskList rs

end Hub

namespace Notion

/-- The `meta` record of a `CardItem` (`ui/types.ts`); the status
enumeration is erased to `String`. -/
structure CardMeta where
  owner : Option String
  date : Option String
  status : Option String
deriving DecidableEq

/-- `Action` from `ui/types.ts`. -/
structure Action where
  id : String
  text : String
  style : Option String
  confirm : Option ConfirmObj
deriving DecidableEq

/-- `CardItem` from `ui/types.ts`. -/
structure CardItem where
  id : String
  title : String
  subtitle : Option String
  meta : CardMeta
  content : Option String
  actions : Option (List Action)
deriving DecidableEq

/-- JavaScript string truthiness: `undefined` and `""` are falsy. A
`x && template` fragment contributes only when `truthy x = some x`. -/
def truthy : Option String → Option String
  | some s => if s = "" then none else some s
  | none => none

/-- `getStatusEmoji` from `ui/builders.ts`: a switch over the status with
`⚪` as the default (also hit when the status is `undefined`). -/
def getStatusEmoji (status : Option String) : String :=
  if status = some "active" then "🟢"
  else if status = some "paused" then "🟡"
  else if status = some "completed" then "✅"
  else if status = some "pending" then "⏳"
  else "⚪"

/-- The truthy segments of `buildCard`'s `metaText`, in source order:
owner, date, status (the status segment uses `getStatusEmoji`). Mirrors
`[owner && …, date && …, status && …].filter(Boolean)`. -/
def metaParts (m : CardMeta) : List String :=
  (match truthy m.owner with
   | some o => ["👤 " ++ o]
   | none => [])
  ++ (match truthy m.date with
   | some d => ["📅 " ++ d]
   | none => [])
  ++ (match truthy m.status with
   | some s => [getStatusEmoji m.status ++ " " ++ s]
   | none => [])

/-- JavaScript `Array.prototype.join(" • ")`. -/
def joinDots : List String → String
  | [] => ""
  | [x] => x
  | x :: xs => x ++ " • " ++ joinDots xs

/-- `metaText` inside `buildCard`. -/
def metaText (m : CardMeta) : String :=
  joinDots (metaParts m)

/-- The title text of a card: `*title*` plus an italic subtitle line when
the subtitle is truthy. -/
def cardTitleText (item : CardItem) : String :=
  "*" ++ item.title ++ "*"
  ++ (match truthy item.subtitle with
      | some s => "\n_" ++ s ++ "_"
      | none => "")

/-- One card action button: `action_id = "card_action_" + action.id`,
`value = item.id`, optional style and confirm. -/
def cardButton (itemId : String) (a : Action) : Button :=
  ⟨"card_action_" ++ a.id, a.text, a.style, some itemId, a.confirm⟩

/-- `buildCard` from `ui/builders.ts`: a section, a context block when
`metaText` is truthy, and an actions block when `item.actions` is a
non-empty list. -/
def buildCard (item : CardItem) : List Block :=
  [Block.section (some ("card_" ++ item.id)) (.mrkdwn (cardTitleText item)) none]
  ++ (if metaText item.meta = "" then []
      else [Block.context [.mrkdwn (metaText item.meta)]])
  ++ (match item.actions with
      | some (a :: as) => [Block.actions none ((a :: as).map (cardButton item.id))]
      | _ => [])

/-- `buildCardList` from `ui/builders.ts`: flattens `buildCard` over the
items, pushing a divider after each item whose index is `< length - 1`,
i.e. between consecutive items and never after the last. -/
def buildCardList : List CardItem → List Block
  | [] => []
  | [x] => buildCard x
  | x :: y :: rest => buildCard x ++ Block.divider :: buildCardList (y :: rest)

end Notion

/-- Whitespace for the model of JavaScript `String.prototype.trim`
(the common WhiteSpace/LineTerminator code points). -/
def isTrimWs (c : Char) : Bool :=
  c == ' ' || c == '\t' || c == '\n' || c == '\r' || c == '\x0b' || c == '\x0c'
  || c == '\u00A0' || c == '\uFEFF' || c == '\u2028' || c == '\u2029'

/-- Drop trailing trim-whitespace. -/
def trimEndChars (l : List Char) : List Char :=
  (l.reverse.dropWhile isTrimWs).reverse

/-- Model of JavaScript `String.prototype.trim` on character lists. -/
def jsTrimChars (l : List Char) : List Char :=
  trimEndChars (l.dropWhile isTrimWs)

/-- Model of JavaScript `String.prototype.trim`. -/
def jsTrim (s : String) : String :=
  String.mk (jsTrimChars s.data)

namespace Hub

/-- The argument record of the Hub-family `buildHeader`
(`src/ui/header.ts`): `{ icon?, title, subtitle? }`. -/
structure HeaderCfg where
  icon : Option String
  title : String
  subtitle : Option String
deriving DecidableEq

/-- `buildHeader` from `src/ui/header.ts`: a single section block whose
text is `` `*${icon ?? "📘"} ${title}*\n_${subtitle ?? ""}_`.trim() ``.
It takes no actions and never attaches an accessory. -/
def buildHeader (cfg : HeaderCfg) : Block :=
  .section (some "hdr")
    (.mrkdwn (jsTrim ("*" ++ cfg.icon.getD "📘" ++ " " ++ cfg.title ++ "*\n_"
      ++ cfg.subtitle.getD "" ++ "_")))
    none

/-- The leading `{ type:"context", elements:[{mrkdwn "*Projects*"}] }`
block of `buildProjectNav` (`src/ui/nav.ts`). -/
def projectsHeaderBlock : Block :=
  .context [.mrkdwn "*Projects*"]

/-- One navigation row of `buildProjectNav`: glyph and button label depend
on whether `p.id` equals the selected id; `block_id`, `action_id` and the
button `value` depend only on the project. -/
def navRow (selectedId : Option String) (p : Project) : Block :=
  .section (some ("nav_" ++ p.id))
    (.mrkdwn ((if selectedId = some p.id then "•" else "◦") ++ " *" ++ p.name ++ "*"))
    (some (.abutton ⟨"nav_open_" ++ p.id,
      if selectedId = some p.id then "Open" else "View", none, some p.id, none⟩))

/-- `buildProjectNav` from `src/ui/nav.ts`: context header, one row per
project in input order, trailing divider. -/
def buildProjectNav (projects : List Project) (selectedId : Option String) : List Block :=
  projectsHeaderBlock :: projects.map (navRow selectedId) ++ [Block.divider]

/-- `buildProjectTabs` from `src/ui/tabs.ts`: one actions block with three
buttons; the button whose value equals `active` gets style `"primary"`,
the others get `undefined`. The active tab is a `String` because the
TypeScript `ProjectTab` union is erased at runtime. -/
def buildProjectTabs (active : String) : Block :=
  .actions (some "tabs")
    [⟨"tab_summary", "Summary",
        if active = "summary" then some "primary" else none, some "summary", none⟩,
     ⟨"tab_tasks", "Tasks",
        if active = "tasks" then some "primary" else none, some "tasks", none⟩,
     ⟨"tab_risks", "Risks",
        if active = "risks" then some "primary" else none, some "risks", none⟩]

end Hub

namespace Notion

/-- `HeaderConfig` from `ui/types.ts`: the icon is a required field. -/
structure HeaderConfig where
  icon : String
  title : String
  subtitle : Option String
  actions : Option (List Action)
deriving DecidableEq

/-- The section text of the Notion-family `buildHeader`: the subtitle line
is appended only when the subtitle is truthy (`config.subtitle ? … : ''`). -/
def headerText (cfg : HeaderConfig) : String :=
  cfg.icon ++ " *" ++ cfg.title ++ "*"
  ++ (match truthy cfg.subtitle with
      | some s => "\n" ++ s
      | none => "")

/-- The optional overflow accessory of the Notion-family `buildHeader`:
attached exactly when `config.actions && config.actions.length > 0`, each
action mapped to a `(text, value = action.id)` option pair. -/
def headerOverflow (acts : Option (List Action)) : Option Accessory :=
  match acts with
  | some (a :: as) =>
      some (.overflow "header_actions" ((a :: as).map fun x => ⟨x.text, x.id⟩))
  | _ => none

/-- `buildHeader` from `ui/builders.ts`. -/
def buildHeader (config : HeaderConfig) : List Block :=
  [Block.section (some "home_header") (.mrkdwn (headerText config))
    (headerOverflow config.actions)]

/-- `buildTabs` from `ui/builders.ts`: a single actions block with one
button per tab; style `"primary"` exactly on the button whose id equals
the active tab. -/
def buildTabs (activeTab : String) : List Block :=
  [Block.actions (some "home_tabs")
    [⟨"tab_overview", "🧭 Overview",
        if "overview" = activeTab then some "primary" else none, some "overview", none⟩,
     ⟨"tab_my_updates", "👤 My Updates",
        if "my-updates" = activeTab then some "primary" else none, some "my-updates", none⟩,
     ⟨"tab_admin", "⚙️ Admin",
        if "admin" = activeTab then some "primary" else none, some "admin", none⟩]]

/-- `EmptyStateConfig` from `ui/types.ts`. -/
structure EmptyStateConfig where
  icon : String
  title : String
  hint : String
  cta : Action
deriving DecidableEq

/-- JavaScript `config.cta.style || 'primary'`: falsy styles (absent or
empty) default to `"primary"`. -/
def styleOr : Option String → String
  | some s => if s = "" then "primary" else s
  | none => "primary"

/-- `buildEmptyState` from `ui/builders.ts`: a section plus an actions
block with a single CTA button. -/
def buildEmptyState (config : EmptyStateConfig) : List Block :=
  [Block.section none (.mrkdwn (config.icon ++ " *" ++ config.title ++ "*\n" ++ config.hint)) none,
   Block.actions none
     [⟨config.cta.id, config.cta.text, some (styleOr config.cta.style), none, none⟩]]

/-- The `*Recent Updates* (N)` section of `buildOverviewContent`. -/
def recentSection (n : Nat) : Block :=
  .section none (.mrkdwn ("*Recent Updates* (" ++ Nat.repr n ++ ")")) none

/-- The `_... and N more updates_` note pushed by `buildOverviewContent`
when more than 5 items are supplied. -/
def moreNote (n : Nat) : Block :=
  .section none (.mrkdwn ("_... and " ++ Nat.repr n ++ " more updates_")) none

/-- The empty-state configuration used by `buildOverviewContent`. -/
def allCaughtUp : EmptyStateConfig :=
  ⟨"✅", "All caught up!", "No pending updates from your team",
   ⟨"refresh", "Refresh", none, none⟩⟩

/-- `buildOverviewContent` from `ui/builders.ts`: empty state for zero
items, otherwise a header section, a divider, `buildCardList` of
`items.slice(0, 5)`, and — only when `items.length > 5` — a trailing
`_... and N more updates_` note. -/
def buildOverviewContent (items : List CardItem) : List Block :=
  if items = [] then buildEmptyState allCaughtUp
  else [recentSection items.length, Block.divider]
    ++ buildCardList (items.take 5)
    ++ (if 5 < items.length then [moreNote (items.length - 5)] else [])

/-- The empty-state configuration used by `buildMyUpdatesContent`. -/
def myUpdatesEmpty : EmptyStateConfig :=
  ⟨"👤", "No updates from you", "Share your progress with the team",
   ⟨"create_update", "Create Update", some "primary", none⟩⟩

/-- `buildMyUpdatesContent` from `ui/builders.ts`: filters items whose
`meta.owner === 'me'` (the literal sentinel). -/
def buildMyUpdatesContent (items : List CardItem) : List Block :=
  let myItems := items.filter fun i => i.meta.owner == some "me"
  if myItems = [] then buildEmptyState myUpdatesEmpty
  else [Block.section none (.mrkdwn ("*Your Updates* (" ++ Nat.repr myItems.length ++ ")")) none,
        Block.divider]
    ++ buildCardList myItems

/-- `buildAdminContent` from `ui/builders.ts`: aggregate statistics plus
two static management buttons. `new Set(...).size` is `dedup.length`. -/
def buildAdminContent (items : List CardItem) : List Block :=
  [Block.section none (.mrkdwn "*Admin Panel*") none,
   Block.divider,
   Block.section none (.mrkdwn ("• *Total Updates:* " ++ Nat.repr items.length
     ++ "\n• *Active Users:* " ++ Nat.repr ((items.map fun i => i.meta.owner).dedup.length)
     ++ "\n• *Pending Reviews:* "
     ++ Nat.repr (items.filter fun i => i.meta.status == some "pending").length)) none,
   Block.divider,
   Block.actions none
     [⟨"admin_manage_users", "👤 Manage Users", none, none, none⟩,
      ⟨"admin_settings", "⚙️ Settings", none, none, none⟩]]

/-- The default-branch empty-state configuration of `buildContent`. -/
def noContentState : EmptyStateConfig :=
  ⟨"🗂️", "No content available", "Select a different tab to view content",
   ⟨"refresh", "Refresh", none, none⟩⟩

/-- `HomeTab` from `ui/types.ts`; the tab union is erased to `String`. -/
structure HomeTab where
  tab : String
  items : List CardItem
deriving DecidableEq

/-- `buildContent` from `ui/builders.ts`: the tab switch, with a default
branch producing a generic empty state. -/
def buildContent (config : HomeTab) : List Block :=
  if config.tab = "overview" then buildOverviewContent config.items
  else if config.tab = "my-updates" then buildMyUpdatesContent config.items
  else if config.tab = "admin" then buildAdminContent config.items
  else buildEmptyState noContentState

/-- The fixed header configuration `buildHome` passes to `buildHeader`. -/
def homeHeaderConfig : HeaderConfig :=
  ⟨"📌", "Project Updates", some "Track team progress and manage updates",
   some [⟨"refresh", "Refresh", none, none⟩]⟩

/-- `buildHome` from `ui/builders.ts`: returns `{ type: 'home', blocks }`
with no `private_metadata` (modelled as `none`). -/
def buildHome (config : HomeTab) : View :=
  { type := "home",
    private_metadata := none,
    blocks := buildHeader homeHeaderConfig ++ buildTabs config.tab
      ++ [Block.divider] ++ buildContent config }

end Notion

/-- JSON values as produced by the model of `JSON.parse`. Number literals
keep their lexeme (their numeric value is never inspected by this code). -/
inductive Json where
  | null
  | bool (b : Bool)
  | num (lexeme : String)
  | str (s : String)
  | arr (items : List Json)
  | obj (members : List (String × Json))

/-- JSON insignificant whitespace (RFC 8259: space, tab, LF, CR). -/
def isJsonWs (c : Char) : Bool :=
  c == ' ' || c == '\t' || c == '\n' || c == '\r'

/-- Skip JSON whitespace. -/
def skipWs : List Char → List Char
  | [] => []
  | c :: cs => if isJsonWs c then skipWs cs else c :: cs

/-- The lowercase hex digit for `n < 16` (as `JSON.stringify` emits). -/
def hexDigitChar (n : Nat) : Char :=
  if n < 10 then Char.ofNat (48 + n) else Char.ofNat (87 + n)

/-- The value of a hex digit character, if it is one. -/
def hexVal (c : Char) : Option Nat :=
  if '0' ≤ c ∧ c ≤ '9' then some (c.toNat - 48)
  else if 'a' ≤ c ∧ c ≤ 'f' then some (c.toNat - 87)
  else if 'A' ≤ c ∧ c ≤ 'F' then some (c.toNat - 55)
  else none

/-- The single-character JSON string escapes (after a backslash). -/
def escCode (e : Char) : Option Char :=
  if e = '"' then some '"'
  else if e = '\\' then some '\\'
  else if e = '/' then some '/'
  else if e = 'b' then some '\x08'
  else if e = 't' then some '\t'
  else if e = 'n' then some '\n'
  else if e = 'f' then some '\x0c'
  else if e = 'r' then some '\r'
  else none

/-- Parse the body of a JSON string literal (the opening quote already
consumed), returning the decoded characters and the remaining input.
`\u` escapes in the surrogate range — whose results are representable in
a JavaScript (UTF-16) string but not in a Lean `Char` — are modelled as
U+FFFD; success and failure agree with `JSON.parse` on every input. -/
def parseStrBody : List Char → Option (List Char × List Char)
  | [] => none
  | c :: cs =>
    if c = '"' then some ([], cs)
    else if c = '\\' then
      match cs with
      | [] => none
      | e :: cs2 =>
        if e = 'u' then
          match cs2 with
          | h1 :: h2 :: h3 :: h4 :: cs3 =>
            match hexVal h1, hexVal h2, hexVal h3, hexVal h4 with
            | some a, some b, some g, some d =>
              let code := ((a * 16 + b) * 16 + g) * 16 + d
              let ch := if 0xD800 ≤ code ∧ code < 0xE000 then '�' else Char.ofNat code
              match parseStrBody cs3 with
              | some (out, rest) => some (ch :: out, rest)
              | none => none
            | _, _, _, _ => none
          | _ => none
        else
          match escCode e with
          | some ch =>
            match parseStrBody cs2 with
            | some (out, rest) => some (ch :: out, rest)
            | none => none
          | none => none
    else if c.toNat < 32 then none
    else
      match parseStrBody cs with
      | some (out, rest) => some (c :: out, rest)
      | none => none

/-- `true` on decimal digit characters. -/
def isDigitCh (c : Char) : Bool :=
  '0' ≤ c && c ≤ '9'

/-- Parse the optional fraction part of a JSON number. -/
def parseFracPart : List Char → Option (List Char × List Char)
  | [] => some ([], [])
  | c :: cs1 =>
    if c = '.' then
      match cs1 with
      | d :: _ =>
        if isDigitCh d then
          some ('.' :: cs1.takeWhile isDigitCh, cs1.dropWhile isDigitCh)
        else none
      | [] => none
    else some ([], c :: cs1)

/-- Parse the optional exponent part of a JSON number. -/
def parseExpPart : List Char → Option (List Char × List Char)
  | [] => some ([], [])
  | c :: cs1 =>
    if c = 'e' ∨ c = 'E' then
      let sgn : List Char × List Char :=
        match cs1 with
        | s :: r => if s = '+' ∨ s = '-' then ([s], r) else ([], cs1)
        | [] => ([], cs1)
      match sgn.2 with
      | d :: _ =>
        if isDigitCh d then
          some (c :: sgn.1 ++ sgn.2.takeWhile isDigitCh, sgn.2.dropWhile isDigitCh)
        else none
      | [] => none
    else some ([], c :: cs1)

/-- Parse a JSON number per the RFC 8259 grammar, keeping its lexeme. -/
def parseNum (cs : List Char) : Option (Json × List Char) :=
  let sgn : List Char × List Char :=
    match cs with
    | c :: r => if c = '-' then (['-'], r) else ([], cs)
    | [] => ([], cs)
  match sgn.2 with
  | c :: cs2 =>
    if c = '0' then
      match parseFracPart cs2 with
      | some (f, cs3) =>
        match parseExpPart cs3 with
        | some (e, cs4) => some (.num (String.mk (sgn.1 ++ ['0'] ++ f ++ e)), cs4)
        | none => none
      | none => none
    else if isDigitCh c then
      match parseFracPart ((c :: cs2).dropWhile isDigitCh) with
      | some (f, cs3) =>
        match parseExpPart cs3 with
        | some (e, cs4) =>
          some (.num (String.mk (sgn.1 ++ (c :: cs2).takeWhile isDigitCh ++ f ++ e)), cs4)
        | none => none
      | none => none
    else none
  | [] => none

mutual

/-- Parse one JSON value. The fuel only bounds nesting; every recursive
step first consumes at least one input character, so any fuel exceeding
the input length behaves like `JSON.parse`. -/
def parseVal : Nat → List Char → Option (Json × List Char)
  | 0, _ => none
  | fuel + 1, cs =>
    match skipWs cs with
    | [] => none
    | c :: cs1 =>
      if c = '\x7b' then
        match skipWs cs1 with
        | [] => none
        | d :: cs2 =>
          if d = '\x7d' then some (.obj [], cs2)
          else parseMembers fuel [] cs1
      else if c = '[' then
        match skipWs cs1 with
        | [] => none
        | d :: cs2 =>
          if d = ']' then some (.arr [], cs2)
          else parseElems fuel [] cs1
      else if c = '"' then
        match parseStrBody cs1 with
        | some (out, rest) => some (.str (String.mk out), rest)
        | none => none
      else if c = 't' then
        match cs1 with
        | c1 :: c2 :: c3 :: rest =>
          if c1 = 'r' ∧ c2 = 'u' ∧ c3 = 'e' then some (.bool true, rest) else none
        | _ => none
      else if c = 'f' then
        match cs1 with
        | c1 :: c2 :: c3 :: c4 :: rest =>
          if c1 = 'a' ∧ c2 = 'l' ∧ c3 = 's' ∧ c4 = 'e' then some (.bool false, rest)
          else none
        | _ => none
      else if c = 'n' then
        match cs1 with
        | c1 :: c2 :: c3 :: rest =>
          if c1 = 'u' ∧ c2 = 'l' ∧ c3 = 'l' then some (.null, rest) else none
        | _ => none
      else parseNum (c :: cs1)

/-- Parse the members of a JSON object (after the opening brace, when the
object is known to be non-empty). Later duplicate keys overwrite earlier
ones at lookup time, matching JavaScript semantics. -/
def parseMembers : Nat → List (String × Json) → List Char → Option (Json × List Char)
  | 0, _, _ => none
  | fuel + 1, acc, cs =>
    match skipWs cs with
    | [] => none
    | c :: cs1 =>
      if c = '"' then
        match parseStrBody cs1 with
        | some (key, cs2) =>
          match skipWs cs2 with
          | [] => none
          | d :: cs3 =>
            if d = ':' then
              match parseVal fuel cs3 with
              | some (v, cs4) =>
                match skipWs cs4 with
                | [] => none
                | e :: cs5 =>
                  if e = ',' then parseMembers fuel (acc ++ [(String.mk key, v)]) cs5
                  else if e = '\x7d' then some (.obj (acc ++ [(String.mk key, v)]), cs5)
                  else none
              | none => none
            else none
        | none => none
      else none

/-- Parse the elements of a JSON array (after the opening bracket, when
the array is known to be non-empty). -/
def parseElems : Nat → List Json → List Char → Option (Json × List Char)
  | 0, _, _ => none
  | fuel + 1, acc, cs =>
    match parseVal fuel cs with
    | some (v, cs1) =>
      match skipWs cs1 with
      | [] => none
      | e :: cs2 =>
        if e = ',' then parseElems fuel (acc ++ [v]) cs2
        else if e = ']' then some (.arr (acc ++ [v]), cs2)
        else none
    | none => none

end

/-- Model of `JSON.parse`: parse one value surrounded by optional
whitespace; anything else fails (which the source surfaces as a thrown
`SyntaxError`, modelled here as `none`). -/
def parseJson (s : String) : Option Json :=
  match parseVal (s.data.length + 4) s.data with
  | some (j, rest) => if skipWs rest = [] then some j else none
  | none => none

/-- One character as escaped by `JSON.stringify` inside a string literal:
quote and backslash get two-character escapes, the five short control
escapes are used where available, other control characters become
`\u00XX`, and everything else is passed through verbatim. -/
def escChar (c : Char) : List Char :=
  if c = '"' then ['\\', '"']
  else if c = '\\' then ['\\', '\\']
  else if c = '\x08' then ['\\', 'b']
  else if c = '\t' then ['\\', 't']
  else if c = '\n' then ['\\', 'n']
  else if c = '\x0c' then ['\\', 'f']
  else if c = '\r' then ['\\', 'r']
  else if c.toNat < 32 then
    ['\\', 'u', '0', '0', hexDigitChar (c.toNat / 16), hexDigitChar (c.toNat % 16)]
  else [c]

/-- `escChar` mapped over a character list. -/
def escapeList : List Char → List Char
  | [] => []
  | c :: cs => escChar c ++ escapeList cs

/-- A serialized JSON string literal followed by `tail`. -/
def strChunk (l : List Char) (tail : List Char) : List Char :=
  '"' :: (escapeList l ++ '"' :: tail)

namespace Hub

/-- `HomeState` from `src/ui/views.ts`: the object serialized into
`private_metadata`. The tab is a `String` (type erased at runtime). -/
structure HomeState where
  selectedProjectId : Option String
  activeTab : Option String
deriving DecidableEq

/-- The characters of `JSON.stringify` applied to a `HomeState` object:
keys in property order, `undefined`-valued properties dropped. -/
def encodeStateChars : HomeState → List Char
  | ⟨some p, some t⟩ =>
    '\x7b' :: strChunk "selectedProjectId".data (':' :: strChunk p.data
      (',' :: strChunk "activeTab".data (':' :: strChunk t.data ['\x7d'])))
  | ⟨some p, none⟩ =>
    '\x7b' :: strChunk "selectedProjectId".data (':' :: strChunk p.data ['\x7d'])
  | ⟨none, some t⟩ =>
    '\x7b' :: strChunk "activeTab".data (':' :: strChunk t.data ['\x7d'])
  | ⟨none, none⟩ => ['\x7b', '\x7d']

/-- `JSON.stringify(state)` as `buildHomeView` performs it. -/
def encodeState (st : HomeState) : String :=
  String.mk (encodeStateChars st)

/-- Last-wins key lookup in a parsed JSON object, as in a JavaScript
object literal with duplicate keys. -/
def lookupLast (key : String) : List (String × Json) → Option Json
  | [] => none
  | (k, v) :: rest =>
    match lookupLast key rest with
    | some r => some r
    | none => if k = key then some v else none

/-- Extract a JSON string value. -/
def asStr : Json → Option String
  | .str s => some s
  | _ => none

/-- The two fields `getStateFromView`'s callers read from the parsed
token. The source returns the parsed value unchecked; only these two
properties are ever observed, and a non-object (or a non-string field)
observes as `undefined`. -/
def stateOfJson : Json → HomeState
  | .obj ms =>
    ⟨(lookupLast "selectedProjectId" ms).bind asStr,
     (lookupLast "activeTab" ms).bind asStr⟩
  | _ => ⟨none, none⟩

/-- `getStateFromView` from `src/handlers/home.ts`:
`view?.private_metadata` falsy (absent view, absent token, or the empty
string) yields `{}`; a parse failure is caught and yields `{}`. -/
def getStateFromView (view : Option View) : HomeState :=
  match view with
  | none => ⟨none, none⟩
  | some v =>
    match v.private_metadata with
    | none => ⟨none, none⟩
    | some s =>
      if s = "" then ⟨none, none⟩
      else
        match parseJson s with
        | none => ⟨none, none⟩
        | some j => stateOfJson j

/-- The inline "no tasks yet" fallback of `buildHomeView`. -/
def noTasksBlock : Block :=
  .section none (.mrkdwn "*No tasks yet*\n_Add your first task to get rolling._")
    (some (.abutton ⟨"task_new", "Add Task", none, none, none⟩))

/-- The inline "no risks captured" fallback of `buildHomeView`. -/
def noRisksBlock : Block :=
  .section none (.mrkdwn "*No risks captured*\n_Add the first risk to start mitigation planning._")
    (some (.abutton ⟨"risk_new", "Add Risk", none, none, none⟩))

/-- The `bodyBlocks` computation of `buildHomeView` (`src/ui/views.ts`):
an if/else-if chain over `(selectedProject, activeTab)` with no final
else branch — an unrecognized tab with a selected project produces no
body blocks at all. -/
def buildHomeBody (selectedProject : Option Project) (tab : String)
    (tasks : List Task) (risks : List Risk) : List Block :=
  match selectedProject with
  | none =>
    [.section (some "empty")
      (.mrkdwn "*🧭 No project selected*\n_Select one from the left to view details._")
      (some (.abutton ⟨"new_project", "New Project", none, none, none⟩))]
  | some p =>
    if tab = "summary" then
      [.section none (.mrkdwn ("*Project Summary*\n" ++ p.description.getD "_No description_")) none,
       .context [.mrkdwn ("*Tasks:* " ++ Nat.repr tasks.length
         ++ "  •  *Risks:* " ++ Nat.repr risks.length)]]
    else if tab = "tasks" then
      [.section none (.mrkdwn "*Tasks*")
         (some (.abutton ⟨"task_new", "New Task", none, none, none⟩)),
       .divider]
      ++ (match tasks with
          | [] => [noTasksBlock]
          | _ => buildTaskList tasks)
    else if tab = "risks" then
      [.section none (.mrkdwn "*Risks*")
         (some (.abutton ⟨"risk_new", "New Risk", none, none, none⟩)),
       .divider]
      ++ (match risks with
          | [] => [noRisksBlock]
          | _ => buildRiskList risks)
    else []

/-- The parameter record of `buildHomeView`. `activeTab` defaults to
`"summary"` inside the function (destructuring default). -/
structure HomeParams where
  projects : List Project
  selectedProject : Option Project
  activeTab : Option String
  tasks : List Task
  risks : List Risk

/-- `buildHomeView` from `src/ui/views.ts`: navigation, header, divider,
optional tab bar (only with a selected project), body; attaches the
JSON-serialized `HomeState` as `private_metadata`. -/
def buildHomeView (params : HomeParams) : View :=
  let tab := params.activeTab.getD "summary"
  let selId := params.selectedProject.map Project.id
  { type := "home",
    private_metadata := some (encodeState ⟨selId, some tab⟩),
    blocks :=
      buildProjectNav params.projects selId
      ++ [buildHeader ⟨some "📘",
            (match params.selectedProject with
             | some p => p.name
             | none => "AI Project Hub"),
            some (match params.selectedProject with
             | some _ => "Your calm command center"
             | none => "Choose a project to begin")⟩,
          Block.divider]
      ++ (match params.selectedProject with
          | some _ => [buildProjectTabs tab, Block.divider]
          | none => [])
      ++ buildHomeBody params.selectedProject tab params.tasks params.risks }

end Hub

/-- The `elements` of an actions block (else `[]`). -/
def elementsOf : Block → List Button
  | .actions _ es => es
  | _ => []

/-- The elements of the first block of a block list (else `[]`). -/
def firstElements : List Block → List Button
  | b :: _ => elementsOf b
  | [] => []

/-- The main text of a block (else `""`). -/
def textOf : Block → String
  | .section _ (.mrkdwn s) _ => s
  | .section _ (.plain s) _ => s
  | _ => ""

/-- The `block_id` of a block, when it has one. -/
def blockIdOf : Block → Option String
  | .section bid _ _ => bid
  | .actions bid _ => bid
  | _ => none

/-- The `accessory` of a section block. -/
def accessoryOf : Block → Option Accessory
  | .section _ _ acc => acc
  | _ => none

/-- The `action_id` of a section's button accessory. -/
def navButtonActionId (b : Block) : Option String :=
  match accessoryOf b with
  | some (.abutton btn) => some btn.action_id
  | _ => none

/-- The `value` of a section's button accessory. -/
def navButtonValue (b : Block) : Option String :=
  match accessoryOf b with
  | some (.abutton btn) => btn.value
  | _ => none

/-- Erase the purely presentational parts of a navigation block: the
section text and the button label. Everything else (block ids, action
ids, button values, block order) is kept. -/
def eraseAcc : Accessory → Accessory
  | .abutton b => .abutton ⟨b.action_id, "", b.style, b.value, b.confirm⟩
  | a => a

/-- `eraseAcc` lifted to blocks (section text erased as well). -/
def eraseNavBlock : Block → Block
  | .section bid _ acc => .section bid (.mrkdwn "") (acc.map eraseAcc)
  | b => b

/-- The closed status enumeration of the `CardItem` family. -/
def statusEnum : List String :=
  ["active", "paused", "completed", "pending"]

/-- A sample task used for concrete counterexamples. -/
def sampleTask : Hub.Task :=
  ⟨"t1", "p1", "Home view scaffold", none, "To Do", "High", "U12345", none, "2025-10-10"⟩

/-- A sample risk used for concrete witnesses. -/
def sampleRisk : Hub.Risk :=
  ⟨"r1", "p1", "Slack rate limits", "Rapid view updates might hit rate limits.",
   "Medium", "High", "U12345", none, "Open", "2025-10-10"⟩

/-- A sample project used for concrete witnesses. -/
def sampleProject : Hub.Project :=
  ⟨"p1", "AI Project Hub", some "Slack-native PM hub with Notion-like UI."⟩

/-- A minimal sample card (empty meta, no actions). -/
def sampleCard : Notion.CardItem :=
  ⟨"c1", "API Integration", none, ⟨none, none, none⟩, none, none⟩

/-- A card with an owner but no status, for the C5 counterexample. -/
def cardNoStatus : Notion.CardItem :=
  ⟨"u1", "Update", none, ⟨some "alice", none, none⟩, none, none⟩

/-- The n-th sample overview item. -/
def ovItem (n : Nat) : Notion.CardItem :=
  ⟨"i" ++ Nat.repr n, "Update " ++ Nat.repr n, none, ⟨none, none, none⟩, none, none⟩

/-- Seven sample items (more than the overview cap of 5). -/
def sevenItems : List Notion.CardItem :=
  [ovItem 1, ovItem 2, ovItem 3, ovItem 4, ovItem 5, ovItem 6, ovItem 7]

/-- Three sample items (at most the overview cap of 5). -/
def threeItems : List Notion.CardItem :=
  [ovItem 1, ovItem 2, ovItem 3]

lemma buildCard_shape (item : Notion.CardItem) :
    (Notion.buildCard item).countP isDividerB = 0
    ∧ Notion.buildCard item ≠ []
    ∧ (Notion.buildCard item).getLast? ≠ some Block.divider := by
  by_cases h1 : Notion.metaText item.meta = "" <;>
    rcases h2 : item.actions with _ | ⟨_ | ⟨a, as⟩⟩ <;>
    simp [Notion.buildCard, h1, h2, List.countP_cons, isDividerB]

lemma buildCardList_ne_nil (x : Notion.CardItem) (xs : List Notion.CardItem) :
    Notion.buildCardList (x :: xs) ≠ [] := by
  cases xs with
  | nil => exact (buildCard_shape x).2.1
  | cons y rest =>
    unfold Notion.buildCardList
    simp [(buildCard_shape x).2.1]

lemma buildCardList_div (cs : List Notion.CardItem) (h : cs ≠ []) :
    (Notion.buildCardList cs).countP isDividerB = cs.length - 1
    ∧ (Notion.buildCardList cs).getLast? ≠ some Block.divider := by
  induction cs with
  | nil => exact absurd rfl h
  | cons x xs ih =>
    cases xs with
    | nil =>
      unfold Notion.buildCardList
      exact ⟨(buildCard_shape x).1, (buildCard_shape x).2.2⟩
    | cons y rest =>
      have hrec := ih (by simp)
      unfold Notion.buildCardList
      constructor
      · rw [List.countP_append, List.countP_cons, (buildCard_shape x).1, hrec.1]
        simp [isDividerB]
      · rw [List.getLast?_append_of_ne_nil _ (by simp),
          show Block.divider :: Notion.buildCardList (y :: rest)
              = [Block.divider] ++ Notion.buildCardList (y :: rest) from rfl,
          List.getLast?_append_of_ne_nil _ (buildCardList_ne_nil y rest)]
        exact hrec.2

lemma buildTaskList_ne_nil (t : Hub.Task) (ts : List Hub.Task) :
    Hub.buildTaskList (t :: ts) ≠ [] := by
  unfold Hub.buildTaskList
  simp [Hub.buildTaskCard]

lemma buildTaskList_div (ts : List Hub.Task) (h : ts ≠ []) :
    (Hub.buildTaskList ts).countP isDividerB = ts.length
    ∧ (Hub.buildTaskList ts).getLast? = some Block.divider := by
  induction ts with
  | nil => exact absurd rfl h
  | cons t ts ih =>
    cases ts with
    | nil =>
      unfold Hub.buildTaskList Hub.buildTaskList
      simp [Hub.buildTaskCard, List.countP_cons, isDividerB]
    | cons u us =>
      have hrec := ih (by simp)
      unfold Hub.buildTaskList
      constructor
      · rw [List.countP_append, hrec.1]
        simp [Hub.buildTaskCard, List.countP_cons, isDividerB]
        omega
      · rw [List.getLast?_append_of_ne_nil _ (buildTaskList_ne_nil u us)]
        exact hrec.2

lemma buildRiskList_ne_nil (r : Hub.Risk) (rs : List Hub.Risk) :
    Hub.buildRiskList (r :: rs) ≠ [] := by
  unfold Hub.buildRiskList
  simp [Hub.buildRiskCard]

lemma buildRiskList_div (rs : List Hub.Risk) (h : rs ≠ []) :
    (Hub.buildRiskList rs).countP isDividerB = rs.length
    ∧ (Hub.buildRiskList rs).getLast? = some Block.divider := by
  induction rs with
  | nil => exact absurd rfl h
  | cons r rs ih =>
    cases rs with
    | nil =>
      unfold Hub.buildRiskList Hub.buildRiskList
      simp [Hub.buildRiskCard, List.countP_cons, isDividerB]
    | cons u us =>
      have hrec := ih (by simp)
      unfold Hub.buildRiskList
      constructor
      · rw [List.countP_append, hrec.1]
        simp [Hub.buildRiskCard, List.countP_cons, isDividerB]
        omega
      · rw [List.getLast?_append_of_ne_nil _ (buildRiskList_ne_nil u us)]
        exact hrec.2



/-- C1, counterexample: the claim says the list composers never emit a
divider after the last record, but `buildTaskList` over the non-empty
list `[sampleTask]` ends with a divider (each task card carries its own
trailing divider and `buildTaskList` flat-maps the cards verbatim). -/
theorem c1_counterexample :
    (Hub.buildTaskList [sampleTask]).getLast? = some Block.divider
    ∧ [sampleTask] ≠ [] := by
  decide

/-- C1, amended: all three list composers emit zero blocks for an empty
list. `buildCardList` emits exactly `N-1` dividers for `N>0` records and
never ends with one (dividers only between consecutive records), while
`buildTaskList` and `buildRiskList` emit one divider per record — after
every record, including the last. -/
theorem c1_amended :
    (Notion.buildCardList [] = [] ∧ Hub.buildTaskList [] = [] ∧ Hub.buildRiskList [] = [])
    ∧ (∀ cs : List Notion.CardItem, cs ≠ [] →
        (Notion.buildCardList cs).countP isDividerB = cs.length - 1
        ∧ (Notion.buildCardList cs).getLast? ≠ some Block.divider)
    ∧ (∀ ts : List Hub.Task, ts ≠ [] →
        (Hub.buildTaskList ts).countP isDividerB = ts.length
        ∧ (Hub.buildTaskList ts).getLast? = some Block.divider)
    ∧ (∀ rs : List Hub.Risk, rs ≠ [] →
        (Hub.buildRiskList rs).countP isDividerB = rs.length
        ∧ (Hub.buildRiskList rs).getLast? = some Block.divider) :=
  ⟨⟨rfl, rfl, rfl⟩, buildCardList_div, buildTaskList_div, buildRiskList_div⟩

/-- Witness for C1 (amended) at concrete singleton lists. -/
theorem c1_amended_witness :
    ((Notion.buildCardList [sampleCard]).countP isDividerB = 0
      ∧ (Notion.buildCardList [sampleCard]).getLast? ≠ some Block.divider)
    ∧ ((Hub.buildTaskList [sampleTask]).countP isDividerB = 1
      ∧ (Hub.buildTaskList [sampleTask]).getLast? = some Block.divider)
    ∧ ((Hub.buildRiskList [sampleRisk]).countP isDividerB = 1
      ∧ (Hub.buildRiskList [sampleRisk]).getLast? = some Block.divider) :=
  ⟨c1_amended.2.1 [sampleCard] (by simp),
   c1_amended.2.2.1 [sampleTask] (by simp),
   c1_amended.2.2.2 [sampleRisk] (by simp)⟩

/-- C8: both tab bars emit one button per enumerated tab (values in the
fixed enumeration order), and for an active tab inside the enumeration
exactly one button carries the `"primary"` style — the button whose value
equals the active tab; all others are unstyled. -/
theorem c8_tab_exclusivity (active : String) :
    ((elementsOf (Hub.buildProjectTabs active)).map Button.value
        = [some "summary", some "tasks", some "risks"])
    ∧ ((firstElements (Notion.buildTabs active)).map Button.value
        = [some "overview", some "my-updates", some "admin"])
    ∧ (Notion.buildTabs active).length = 1
    ∧ (active ∈ (["summary", "tasks", "risks"] : List String) →
        (elementsOf (Hub.buildProjectTabs active)).countP
            (fun b => b.style == some "primary") = 1
        ∧ ∀ b ∈ elementsOf (Hub.buildProjectTabs active),
            (b.style = some "primary" ↔ b.value = some active))
    ∧ (active ∈ (["overview", "my-updates", "admin"] : List String) →
        (firstElements (Notion.buildTabs active)).countP
            (fun b => b.style == some "primary") = 1
        ∧ ∀ b ∈ firstElements (Notion.buildTabs active),
            (b.style = some "primary" ↔ b.value = some active)) := by
  refine ⟨rfl, rfl, rfl, ?_, ?_⟩
  · intro h
    simp only [List.mem_cons, List.not_mem_nil, or_false] at h
    rcases h with rfl | rfl | rfl <;> decide
  · intro h
    simp only [List.mem_cons, List.not_mem_nil, or_false] at h
    rcases h with rfl | rfl | rfl <;> decide

/-- Witness for C8 at the active tabs `"tasks"` and `"admin"`. -/
theorem c8_tab_exclusivity_witness :
    ((elementsOf (Hub.buildProjectTabs "tasks")).countP
        (fun b => b.style == some "primary") = 1
      ∧ ∀ b ∈ elementsOf (Hub.buildProjectTabs "tasks"),
          (b.style = some "primary" ↔ b.value = some "tasks"))
    ∧ ((firstElements (Notion.buildTabs "admin")).countP
        (fun b => b.style == some "primary") = 1
      ∧ ∀ b ∈ firstElements (Notion.buildTabs "admin"),
          (b.style = some "primary" ↔ b.value = some "admin")) :=
  ⟨(c8_tab_exclusivity "tasks").2.2.2.1 (by decide),
   (c8_tab_exclusivity "admin").2.2.2.2 (by decide)⟩

/-- C9: `buildProjectNav` yields the "Projects" context header, one row
per project in input order, and a trailing divider; changing the selected
id changes nothing once the presentational parts (row text, button label)
are erased — block ids, action ids and button values are functions of the
project alone. -/
theorem c9_nav_frame (ps : List Hub.Project) (s1 s2 : Option String) :
    ((Hub.buildProjectNav ps s1).map eraseNavBlock
      = (Hub.buildProjectNav ps s2).map eraseNavBlock)
    ∧ (∀ sel, Hub.buildProjectNav ps sel
        = Hub.projectsHeaderBlock :: ps.map (Hub.navRow sel) ++ [Block.divider])
    ∧ (∀ sel p, blockIdOf (Hub.navRow sel p) = some ("nav_" ++ p.id)
        ∧ navButtonActionId (Hub.navRow sel p) = some ("nav_open_" ++ p.id)
        ∧ navButtonValue (Hub.navRow sel p) = some p.id) := by
  refine ⟨?_, fun _ => rfl, fun _ _ => ⟨rfl, rfl, rfl⟩⟩
  simp only [Hub.buildProjectNav, List.map_cons, List.map_append, List.map_map]
  congr 2

/-- C10: `buildHome` returns exactly a `"home"` type tag plus the block
sequence, with no `private_metadata` state token; `buildHomeView`, by
contrast, always attaches the serialized `HomeState` token. -/
theorem c10_no_state_token (config : Notion.HomeTab) :
    (Notion.buildHome config).type = "home"
    ∧ (Notion.buildHome config).private_metadata = none
    ∧ (Notion.buildHome config).blocks
        = Notion.buildHeader Notion.homeHeaderConfig ++ Notion.buildTabs config.tab
          ++ [Block.divider] ++ Notion.buildContent config
    ∧ ∀ params : Hub.HomeParams,
        (Hub.buildHomeView params).private_metadata
          = some (Hub.encodeState ⟨params.selectedProject.map Hub.Project.id,
              some (params.activeTab.getD "summary")⟩)
        ∧ (Hub.buildHomeView params).private_metadata ≠ none :=
  ⟨rfl, rfl, rfl, fun _ => ⟨rfl, by simp [Hub.buildHomeView]⟩⟩

/-- C7, counterexample: with a project selected and an active-tab value
outside the enumeration, `buildHomeView`'s if/else-if chain (which has no
final else) produces no body blocks at all, not a generic empty state. -/
theorem c7_counterexample :
    Hub.buildHomeBody (some sampleProject) "bogus" [] [] = []
    ∧ "bogus" ∉ (["summary", "tasks", "risks"] : List String) := by
  decide

/-- C7, amended: `buildContent` (CardItem family) does have an exhaustive
default branch producing a generic empty state for any unknown tab, but
`buildHomeView`'s tab chain produces no body content for an unknown tab
with a project selected. -/
theorem c7_amended :
    (∀ config : Notion.HomeTab,
      config.tab ∉ (["overview", "my-updates", "admin"] : List String) →
      Notion.buildContent config = Notion.buildEmptyState Notion.noContentState)
    ∧ (∀ (p : Hub.Project) (tab : String) (ts : List Hub.Task) (rs : List Hub.Risk),
        tab ∉ (["summary", "tasks", "risks"] : List String) →
        Hub.buildHomeBody (some p) tab ts rs = []) := by
  constructor
  · intro config h
    simp only [List.mem_cons, List.not_mem_nil, or_false, not_or] at h
    simp [Notion.buildContent, h.1, h.2.1, h.2.2]
  · intro p tab ts rs h
    simp only [List.mem_cons, List.not_mem_nil, or_false, not_or] at h
    simp [Hub.buildHomeBody, h.1, h.2.1, h.2.2]

/-- Witness for C7 (amended) at the unknown tab values `"settings"` and
`"bogus"`. -/
theorem c7_amended_witness :
    Notion.buildContent ⟨"settings", []⟩ = Notion.buildEmptyState Notion.noContentState
    ∧ Hub.buildHomeBody (some sampleProject) "bogus" [] [] = [] :=
  ⟨c7_amended.1 ⟨"settings", []⟩ (by decide),
   c7_amended.2 sampleProject "bogus" [] [] (by decide)⟩

lemma data_append (a b : String) : (a ++ b).data = a.data ++ b.data :=
  rfl

lemma joinDots_infix (parts : List String) (p : String) (hp : p ∈ parts) :
    p.data <:+: (Notion.joinDots parts).data := by
  induction parts with
  | nil => simp at hp
  | cons x xs ih =>
    cases xs with
    | nil =>
      simp only [List.mem_singleton] at hp
      subst hp
      exact List.infix_refl _
    | cons y rest =>
      rcases List.mem_cons.mp hp with rfl | hmem
      · refine ⟨[], (" • " ++ Notion.joinDots (y :: rest)).data, ?_⟩
        simp [Notion.joinDots, data_append, List.append_assoc]
      · have h1 := ih hmem
        have h2 : (Notion.joinDots (y :: rest)).data
            <:+: (Notion.joinDots (x :: y :: rest)).data := by
          refine ⟨(x ++ " • ").data, [], ?_⟩
          simp [Notion.joinDots, data_append, List.append_assoc]
        exact h1.trans h2

/-- C4: the overview tab renders exactly the first five items (in input
order, via `buildCardList`) with one trailing `_... and N more updates_`
note when more than five items are supplied; with five or fewer it
renders all items and appends no note, and with zero items it renders the
"All caught up!" empty state. -/
theorem c4_overview_truncation (items : List Notion.CardItem) :
    (5 < items.length →
      Notion.buildOverviewContent items
        = [Notion.recentSection items.length, Block.divider]
          ++ Notion.buildCardList (items.take 5)
          ++ [Notion.moreNote (items.length - 5)])
    ∧ (items ≠ [] → items.length ≤ 5 →
      Notion.buildOverviewContent items
        = [Notion.recentSection items.length, Block.divider]
          ++ Notion.buildCardList items)
    ∧ (items = [] →
      Notion.buildOverviewContent items = Notion.buildEmptyState Notion.allCaughtUp)
    ∧ (∀ n : Nat, ("... and " ++ Nat.repr n ++ " more updates").data
        <:+: (textOf (Notion.moreNote n)).data) := by
  refine ⟨?_, ?_, ?_, ?_⟩
  · intro h
    have hne : items ≠ [] := by rintro rfl; simp at h
    simp [Notion.buildOverviewContent, hne, h]
  · intro hne hle
    rw [Notion.buildOverviewContent, if_neg hne, if_neg (by omega : ¬ 5 < items.length),
      List.take_of_length_le hle]
    simp
  · rintro rfl
    simp [Notion.buildOverviewContent]
  · intro n
    refine ⟨['_'], ['_'], ?_⟩
    have e1 : ("_... and " : String).data = '_' :: ("... and " : String).data := rfl
    have e2 : (" more updates_" : String).data
        = (" more updates" : String).data ++ ['_'] := rfl
    simp [Notion.moreNote, textOf, data_append, e1, e2, List.append_assoc]

/-- Witness for C4 at a seven-item list (truncated, note reads
`... and 2 more updates`), a three-item list (no note) and the empty
list. -/
theorem c4_overview_truncation_witness :
    (Notion.buildOverviewContent sevenItems
      = [Notion.recentSection 7, Block.divider]
        ++ Notion.buildCardList (sevenItems.take 5)
        ++ [Notion.moreNote 2])
    ∧ (Notion.buildOverviewContent threeItems
      = [Notion.recentSection 3, Block.divider] ++ Notion.buildCardList threeItems)
    ∧ (Notion.buildOverviewContent [] = Notion.buildEmptyState Notion.allCaughtUp)
    ∧ ("... and 2 more updates").data <:+: (textOf (Notion.moreNote 2)).data :=
  ⟨(c4_overview_truncation sevenItems).1 (by decide),
   (c4_overview_truncation threeItems).2.1 (by decide) (by decide),
   (c4_overview_truncation []).2.2.1 rfl,
   (c4_overview_truncation []).2.2.2 2⟩

/-- C5, counterexample: a card whose `meta.status` is unset renders its
context metadata without any status segment — in particular without the
`⚪` glyph the claim requires (the `status && …` fragment is falsy, so
`getStatusEmoji`'s default is never rendered). -/
theorem c5_counterexample :
    Notion.buildCard cardNoStatus
      = [Block.section (some "card_u1") (.mrkdwn "*Update*") none,
         Block.context [.mrkdwn "👤 alice"]]
    ∧ cardNoStatus.meta.status = none
    ∧ ¬ ("⚪".data <:+: (Notion.metaText cardNoStatus.meta).data) := by
  refine ⟨by decide, rfl, by decide⟩

/-- C5, amended: `getStatusEmoji` is total with default `⚪` (never the
empty string) for an absent or out-of-enumeration status; a card whose
status is a non-empty string outside the enumeration does render
`⚪ <status>` in its context metadata; but a card whose status is unset
renders no status segment at all — only owner/date segments appear. -/
theorem c5_amended :
    Notion.getStatusEmoji none = "⚪"
    ∧ (∀ s, s ∉ statusEnum → Notion.getStatusEmoji (some s) = "⚪")
    ∧ (∀ s, Notion.getStatusEmoji s ≠ "")
    ∧ (∀ (m : Notion.CardMeta) (s : String), m.status = some s → s ≠ "" →
        s ∉ statusEnum → ("⚪ " ++ s).data <:+: (Notion.metaText m).data)
    ∧ (∀ m : Notion.CardMeta, m.status = none →
        ∀ p ∈ Notion.metaParts m, (∃ o, p = "👤 " ++ o) ∨ (∃ d, p = "📅 " ++ d)) := by
  refine ⟨rfl, ?_, ?_, ?_, ?_⟩
  · intro s hs
    simp only [statusEnum, List.mem_cons, List.not_mem_nil, or_false, not_or] at hs
    simp [Notion.getStatusEmoji, hs.1, hs.2.1, hs.2.2.1, hs.2.2.2]
  · intro s
    unfold Notion.getStatusEmoji
    split_ifs <;> decide
  · intro m s hm hs hout
    simp only [statusEnum, List.mem_cons, List.not_mem_nil, or_false, not_or] at hout
    have hemoji : Notion.getStatusEmoji m.status = "⚪" := by
      simp [Notion.getStatusEmoji, hm, hs, hout.1, hout.2.1, hout.2.2.1, hout.2.2.2]
    have hmem : (Notion.getStatusEmoji m.status ++ " " ++ s) ∈ Notion.metaParts m := by
      simp [Notion.metaParts, hm, Notion.truthy, hs]
    have := joinDots_infix (Notion.metaParts m) _ hmem
    rwa [hemoji] at this
  · intro m hm p hp
    simp only [Notion.metaParts, hm] at hp
    rcases ho : Notion.truthy m.owner with _ | o <;> rcases hd : Notion.truthy m.date with _ | d
    · rw [ho, hd] at hp
      simp [Notion.truthy] at hp
    · rw [ho, hd] at hp
      simp [Notion.truthy] at hp
      exact Or.inr ⟨d, hp⟩
    · rw [ho, hd] at hp
      simp [Notion.truthy] at hp
      exact Or.inl ⟨o, hp⟩
    · rw [ho, hd] at hp
      simp [Notion.truthy] at hp
      rcases hp with rfl | rfl
      · exact Or.inl ⟨o, rfl⟩
      · exact Or.inr ⟨d, rfl⟩

/-- Witness for C5 (amended) at the out-of-enumeration status
`"archived"` and the status-less meta of `cardNoStatus`. -/
theorem c5_amended_witness :
    Notion.getStatusEmoji (some "archived") = "⚪"
    ∧ ("⚪ archived").data
        <:+: (Notion.metaText ⟨none, none, some "archived"⟩).data
    ∧ (∀ p ∈ Notion.metaParts cardNoStatus.meta,
        (∃ o, p = "👤 " ++ o) ∨ (∃ d, p = "📅 " ++ d))
    ∧ Notion.getStatusEmoji (some "pending") ≠ "" :=
  ⟨c5_amended.2.1 "archived" (by decide),
   c5_amended.2.2.2.1 ⟨none, none, some "archived"⟩ "archived" rfl (by decide) (by decide),
   c5_amended.2.2.2.2 cardNoStatus.meta rfl,
   c5_amended.2.2.1 (some "pending")⟩

lemma jsTrimChars_keep (xs : List Char) :
    jsTrimChars ('*' :: (xs ++ ['_'])) = '*' :: (xs ++ ['_']) := by
  unfold jsTrimChars trimEndChars
  rw [List.dropWhile_cons]
  simp only [show isTrimWs '*' = false from by decide, Bool.false_eq_true, if_false]
  rw [show ('*' :: (xs ++ ['_'])).reverse = '_' :: (xs.reverse ++ ['*']) from by simp]
  rw [List.dropWhile_cons]
  simp only [show isTrimWs '_' = false from by decide, Bool.false_eq_true, if_false]
  simp

/-- C6, counterexample: the Hub-family `buildHeader` with an absent
subtitle renders the stray empty-subtitle markup `__` at the end of its
text (the template always wraps the subtitle in `_…_` and `trim` does not
remove underscores), contradicting the claim that the subtitle is omitted
cleanly with no empty-subtitle markup. -/
theorem c6_counterexample :
    Hub.buildHeader ⟨none, "T", none⟩
      = Block.section (some "hdr") (.mrkdwn "*📘 T*\n__") none
    ∧ ("__" : String).data <:+ ("*📘 T*\n__" : String).data := by
  exact ⟨by decide, by decide⟩

/-- C6, amended: the Notion-family `buildHeader` interpolates icon, title
and subtitle, omits the subtitle cleanly when it is not truthy, and
attaches the overflow accessory (one `(text, value=action.id)` option per
action) exactly when a non-empty action list is supplied — but its icon
is a required field with no default. The Hub-family `buildHeader` is the
one that supplies the default icon `📘` when the icon is absent; it never
attaches an accessory, and with an absent subtitle its text always ends
in the stray empty-subtitle markup `__`. -/
theorem c6_amended :
    (∀ cfg : Notion.HeaderConfig, Notion.truthy cfg.subtitle = none →
        Notion.headerText cfg = cfg.icon ++ " *" ++ cfg.title ++ "*")
    ∧ (∀ (cfg : Notion.HeaderConfig) (sub : String),
        Notion.truthy cfg.subtitle = some sub →
        Notion.headerText cfg = cfg.icon ++ " *" ++ cfg.title ++ "*" ++ ("\n" ++ sub))
    ∧ (∀ (cfg : Notion.HeaderConfig) (a : Notion.Action) (as : List Notion.Action),
        cfg.actions = some (a :: as) →
        Notion.buildHeader cfg
          = [Block.section (some "home_header") (.mrkdwn (Notion.headerText cfg))
              (some (.overflow "header_actions"
                ((a :: as).map fun x => (⟨x.text, x.id⟩ : OptionItem))))])
    ∧ (∀ cfg : Notion.HeaderConfig, cfg.actions = none ∨ cfg.actions = some [] →
        Notion.buildHeader cfg
          = [Block.section (some "home_header") (.mrkdwn (Notion.headerText cfg)) none])
    ∧ (∀ (t : String) (sub : Option String),
        Hub.buildHeader ⟨none, t, sub⟩ = Hub.buildHeader ⟨some "📘", t, sub⟩)
    ∧ (∀ (icon : Option String) (t : String),
        ("__" : String).data <:+ (textOf (Hub.buildHeader ⟨icon, t, none⟩)).data)
    ∧ (∀ cfg : Hub.HeaderCfg, accessoryOf (Hub.buildHeader cfg) = none) := by
  refine ⟨?_, ?_, ?_, ?_, fun _ _ => rfl, ?_, fun _ => rfl⟩
  · intro cfg h
    unfold Notion.headerText
    rw [h]
    simp
  · intro cfg sub h
    unfold Notion.headerText
    rw [h]
  · intro cfg a as h
    unfold Notion.buildHeader Notion.headerOverflow
    rw [h]
  · intro cfg h
    unfold Notion.buildHeader Notion.headerOverflow
    rcases h with h | h <;> rw [h]
  · intro icon t
    have hmk : ∀ l : List Char, (String.mk l).data = l := fun _ => rfl
    have e1 : ("*" : String).data = ['*'] := rfl
    have e2 : (" " : String).data = [' '] := rfl
    have e3 : ("*\n_" : String).data = ['*', '\n', '_'] := rfl
    have e4 : ("" : String).data = ([] : List Char) := rfl
    have e5 : ("_" : String).data = ['_'] := rfl
    have hdata : ("*" ++ (icon.getD "📘") ++ " " ++ t ++ "*\n_" ++ "" ++ "_").data
        = '*' :: (((icon.getD "📘").data ++ [' '] ++ t.data ++ ['*', '\n', '_']) ++ ['_']) := by
      simp [data_append, e1, e2, e3, e4, e5, List.append_assoc]
    show ("__" : String).data
      <:+ (jsTrim ("*" ++ (icon.getD "📘") ++ " " ++ t ++ "*\n_" ++ "" ++ "_")).data
    unfold jsTrim
    rw [hmk, hdata, jsTrimChars_keep]
    refine ⟨'*' :: ((icon.getD "📘").data ++ [' '] ++ t.data ++ ['*', '\n']), ?_⟩
    simp [List.append_assoc]

/-- Witness for C6 (amended) at concrete header configurations. -/
theorem c6_amended_witness :
    Notion.headerText ⟨"📌", "T", none, none⟩ = "📌" ++ " *" ++ "T" ++ "*"
    ∧ Notion.headerText Notion.homeHeaderConfig
        = "📌" ++ " *" ++ "Project Updates" ++ "*"
          ++ ("\n" ++ "Track team progress and manage updates")
    ∧ Notion.buildHeader Notion.homeHeaderConfig
        = [Block.section (some "home_header")
            (.mrkdwn (Notion.headerText Notion.homeHeaderConfig))
            (some (.overflow "header_actions" [⟨"Refresh", "refresh"⟩]))]
    ∧ Notion.buildHeader ⟨"📌", "T", none, none⟩
        = [Block.section (some "home_header")
            (.mrkdwn (Notion.headerText ⟨"📌", "T", none, none⟩)) none] :=
  ⟨c6_amended.1 ⟨"📌", "T", none, none⟩ rfl,
   c6_amended.2.1 Notion.homeHeaderConfig "Track team progress and manage updates" (by decide),
   c6_amended.2.2.1 Notion.homeHeaderConfig ⟨"refresh", "Refresh", none, none⟩ [] rfl,
   c6_amended.2.2.2.1 ⟨"📌", "T", none, none⟩ (Or.inl rfl)⟩

lemma hexVal_hexDigitChar : ∀ n, n < 16 → hexVal (hexDigitChar n) = some n := by
  decide

lemma parseStrBody_escape (l rest : List Char) :
    parseStrBody (escapeList l ++ '"' :: rest) = some (l, rest) := by
  induction l with
  | nil =>
    rw [escapeList, List.nil_append, parseStrBody.eq_def]
    simp
  | cons c cs ih =>
    rw [escapeList]
    by_cases h1 : c = '"'
    · subst h1
      rw [show escChar '"' ++ escapeList cs ++ '"' :: rest
          = '\\' :: '"' :: (escapeList cs ++ '"' :: rest) from rfl, parseStrBody.eq_def]
      simp [escCode, ih]
    by_cases h2 : c = '\\'
    · subst h2
      rw [show escChar '\\' ++ escapeList cs ++ '"' :: rest
          = '\\' :: '\\' :: (escapeList cs ++ '"' :: rest) from rfl, parseStrBody.eq_def]
      simp [escCode, ih]
    by_cases h3 : c = '\x08'
    · subst h3
      rw [show escChar '\x08' ++ escapeList cs ++ '"' :: rest
          = '\\' :: 'b' :: (escapeList cs ++ '"' :: rest) from rfl, parseStrBody.eq_def]
      simp [escCode, ih]
    by_cases h4 : c = '\t'
    · subst h4
      rw [show escChar '\t' ++ escapeList cs ++ '"' :: rest
          = '\\' :: 't' :: (escapeList cs ++ '"' :: rest) from rfl, parseStrBody.eq_def]
      simp [escCode, ih]
    by_cases h5 : c = '\n'
    · subst h5
      rw [show escChar '\n' ++ escapeList cs ++ '"' :: rest
          = '\\' :: 'n' :: (escapeList cs ++ '"' :: rest) from rfl, parseStrBody.eq_def]
      simp [escCode, ih]
    by_cases h6 : c = '\x0c'
    · subst h6
      rw [show escChar '\x0c' ++ escapeList cs ++ '"' :: rest
          = '\\' :: 'f' :: (escapeList cs ++ '"' :: rest) from rfl, parseStrBody.eq_def]
      simp [escCode, ih]
    by_cases h7 : c = '\r'
    · subst h7
      rw [show escChar '\r' ++ escapeList cs ++ '"' :: rest
          = '\\' :: 'r' :: (escapeList cs ++ '"' :: rest) from rfl, parseStrBody.eq_def]
      simp [escCode, ih]
    by_cases h8 : c.toNat < 32
    · have hesc : escChar c
          = ['\\', 'u', '0', '0', hexDigitChar (c.toNat / 16), hexDigitChar (c.toNat % 16)] := by
        simp [escChar, h1, h2, h3, h4, h5, h6, h7, h8]
      have hd1 : hexVal (hexDigitChar (c.toNat / 16)) = some (c.toNat / 16) :=
        hexVal_hexDigitChar _ (by omega)
      have hd2 : hexVal (hexDigitChar (c.toNat % 16)) = some (c.toNat % 16) :=
        hexVal_hexDigitChar _ (by omega)
      rw [hesc, show (['\\', 'u', '0', '0', hexDigitChar (c.toNat / 16),
            hexDigitChar (c.toNat % 16)] : List Char) ++ escapeList cs ++ '"' :: rest
          = '\\' :: 'u' :: '0' :: '0' :: hexDigitChar (c.toNat / 16)
            :: hexDigitChar (c.toNat % 16) :: (escapeList cs ++ '"' :: rest) from rfl,
        parseStrBody.eq_def]
      simp only [hd1, hd2, ih]
      have hcode : ((0 * 16 + 0) * 16 + c.toNat / 16) * 16 + c.toNat % 16 = c.toNat := by
        omega
      have hcode2 : c.toNat / 16 * 16 + c.toNat % 16 = c.toNat := by
        omega
      have hsur : ¬ (55296 ≤ c.toNat ∧ c.toNat < 57344) := by
        omega
      simp [show hexVal '0' = some 0 from rfl, hcode, hcode2, hsur, Char.ofNat_toNat, ih]
    · have hesc : escChar c = [c] := by
        simp [escChar, h1, h2, h3, h4, h5, h6, h7, h8]
      rw [hesc, List.singleton_append, parseStrBody.eq_def]
      simp [h1, h2, h8, ih]

lemma skipWs_not_ws {c : Char} (h : isJsonWs c = false) (cs : List Char) :
    skipWs (c :: cs) = c :: cs := by
  unfold skipWs
  simp [h]

lemma parseVal_string (n : Nat) (l rest : List Char) :
    parseVal (n + 1) ('"' :: (escapeList l ++ '"' :: rest))
      = some (.str (String.mk l), rest) := by
  rw [parseVal.eq_def]
  simp [skipWs_not_ws (by decide : isJsonWs '"' = false), parseStrBody_escape]

lemma parseMembers_one (n : Nat) (acc : List (String × Json)) (k v tail : List Char) :
    parseMembers (n + 2) acc
        ('"' :: (escapeList k ++ '"' :: ':'
          :: '"' :: (escapeList v ++ '"' :: '\x7d' :: tail)))
      = some (.obj (acc ++ [(String.mk k, .str (String.mk v))]), tail) := by
  rw [parseMembers.eq_def]
  simp [skipWs_not_ws (by decide : isJsonWs '"' = false),
    skipWs_not_ws (by decide : isJsonWs ':' = false),
    skipWs_not_ws (by decide : isJsonWs '\x7d' = false),
    parseStrBody_escape, parseVal_string]

lemma parseMembers_two (n : Nat) (acc : List (String × Json))
    (k1 v1 k2 v2 tail : List Char) :
    parseMembers (n + 3) acc
        ('"' :: (escapeList k1 ++ '"' :: ':'
          :: '"' :: (escapeList v1 ++ '"' :: ','
          :: '"' :: (escapeList k2 ++ '"' :: ':'
          :: '"' :: (escapeList v2 ++ '"' :: '\x7d' :: tail)))))
      = some (.obj (acc ++ [(String.mk k1, .str (String.mk v1)),
          (String.mk k2, .str (String.mk v2))]), tail) := by
  rw [parseMembers.eq_def]
  simp only [skipWs_not_ws (by decide : isJsonWs '"' = false),
    skipWs_not_ws (by decide : isJsonWs ':' = false),
    skipWs_not_ws (by decide : isJsonWs ',' = false),
    parseStrBody_escape, parseVal_string]
  have hrec := parseMembers_one n (acc ++ [(String.mk k1, .str (String.mk v1))]) k2 v2 tail
  simp [hrec]

lemma parseVal_objEmpty (n : Nat) :
    parseVal (n + 4) ['\x7b', '\x7d'] = some (.obj [], []) := by
  rw [parseVal.eq_def]
  simp [skipWs_not_ws (by decide : isJsonWs '\x7b' = false),
    skipWs_not_ws (by decide : isJsonWs '\x7d' = false)]

lemma parseVal_objOne (n : Nat) (k v : List Char) :
    parseVal (n + 4) ('\x7b' :: strChunk k (':' :: strChunk v ['\x7d']))
      = some (.obj [(String.mk k, .str (String.mk v))], []) := by
  rw [parseVal.eq_def]
  simp only [strChunk]
  have h := parseMembers_one (n + 1) [] k v []
  simp [skipWs_not_ws (by decide : isJsonWs '\x7b' = false),
    skipWs_not_ws (by decide : isJsonWs '"' = false), h]

lemma parseVal_objTwo (n : Nat) (k1 v1 k2 v2 : List Char) :
    parseVal (n + 4)
        ('\x7b' :: strChunk k1 (':' :: strChunk v1
          (',' :: strChunk k2 (':' :: strChunk v2 ['\x7d']))))
      = some (.obj [(String.mk k1, .str (String.mk v1)),
          (String.mk k2, .str (String.mk v2))], []) := by
  rw [parseVal.eq_def]
  simp only [strChunk]
  have h := parseMembers_two n [] k1 v1 k2 v2 []
  simp [skipWs_not_ws (by decide : isJsonWs '\x7b' = false),
    skipWs_not_ws (by decide : isJsonWs '"' = false), h]

lemma getState_round (st : Hub.HomeState) (ty : String) (bs : List Block) :
    Hub.getStateFromView (some ⟨ty, some (Hub.encodeState st), bs⟩) = st := by
  obtain ⟨sp, tb⟩ := st
  have hmk : ∀ l : List Char, (String.mk l).data = l := fun _ => rfl
  have hmkp : ∀ s : String, String.mk s.data = s := fun _ => rfl
  rcases sp with _ | p <;> rcases tb with _ | t <;>
    simp only [Hub.getStateFromView, Hub.encodeState, Hub.encodeStateChars] <;>
    rw [if_neg (by intro h; exact absurd (congrArg String.data h) (by simp))] <;>
    simp only [parseJson, hmk] <;>
    [rw [parseVal_objEmpty]; rw [parseVal_objOne]; rw [parseVal_objOne];
      rw [parseVal_objTwo]] <;>
    simp [Hub.stateOfJson, Hub.lookupLast, Hub.asStr, hmkp, skipWs]

/-- C2: the `private_metadata` encode/decode pair is a lossless round
trip over `{selectedProjectId?, activeTab?}` — decoding any token
produced by `JSON.stringify` of a `HomeState` (as `buildHomeView`
attaches it) reproduces the identical state object, in particular for
the state `{selectedProjectId: "p1", activeTab: "tasks"}`. -/
theorem c2_state_round_trip :
    (∀ (st : Hub.HomeState) (ty : String) (bs : List Block),
      Hub.getStateFromView (some ⟨ty, some (Hub.encodeState st), bs⟩) = st)
    ∧ (∀ params : Hub.HomeParams,
        Hub.getStateFromView (some (Hub.buildHomeView params))
          = ⟨params.selectedProject.map Hub.Project.id,
             some (params.activeTab.getD "summary")⟩)
    ∧ Hub.getStateFromView
        (some ⟨"home", some (Hub.encodeState ⟨some "p1", some "tasks"⟩), []⟩)
      = ⟨some "p1", some "tasks"⟩ := by
  refine ⟨getState_round, ?_, getState_round ⟨some "p1", some "tasks"⟩ "home" []⟩
  intro params
  show Hub.getStateFromView (some ⟨"home",
    some (Hub.encodeState ⟨params.selectedProject.map Hub.Project.id,
      some (params.activeTab.getD "summary")⟩),
    (Hub.buildHomeView params).blocks⟩) = _
  exact getState_round _ "home" _

/-- C3: `getStateFromView` is a total function that returns the empty
state `{}` whenever the view is absent, the `private_metadata` token is
absent or empty (falsy), or the token fails to parse as JSON — a parse
error is never propagated to the caller. -/
theorem c3_decode_total :
    Hub.getStateFromView none = ⟨none, none⟩
    ∧ (∀ v : View, v.private_metadata = none →
        Hub.getStateFromView (some v) = ⟨none, none⟩)
    ∧ (∀ (v : View) (s : String), v.private_metadata = some s → parseJson s = none →
        Hub.getStateFromView (some v) = ⟨none, none⟩)
    ∧ (∀ (v : View) (s : String), v.private_metadata = some s → s = "" →
        Hub.getStateFromView (some v) = ⟨none, none⟩) := by
  refine ⟨rfl, ?_, ?_, ?_⟩
  · intro v h
    obtain ⟨ty, pm, bs⟩ := v
    cases h
    rfl
  · intro v s h hp
    obtain ⟨ty, pm, bs⟩ := v
    cases h
    by_cases hs : s = "" <;> simp [Hub.getStateFromView, hs, hp]
  · intro v s h hs
    obtain ⟨ty, pm, bs⟩ := v
    cases h
    subst hs
    rfl

/-- Witness for C3 at a missing token, a malformed token and the empty
token. -/
theorem c3_decode_total_witness :
    Hub.getStateFromView (some ⟨"home", none, []⟩) = ⟨none, none⟩
    ∧ Hub.getStateFromView (some ⟨"home", some "not json", []⟩) = ⟨none, none⟩
    ∧ Hub.getStateFromView (some ⟨"home", some "", []⟩) = ⟨none, none⟩ :=
  ⟨c3_decode_total.2.1 ⟨"home", none, []⟩ rfl,
   c3_decode_total.2.2.1 ⟨"home", some "not json", []⟩ "not json" rfl rfl,
   c3_decode_total.2.2.2 ⟨"home", some "", []⟩ "" rfl rfl⟩
